import Mathlib

/-!
Verification development for the Neptune.io host agent (Go sources).

Each definition below is a shallow embedding of a function of the agent's
source tree.  Go machine integers are modelled as `Nat`/`Int`, Go strings
carrying raw process output are modelled as byte lists (`List Nat`), and
fallible or external IO (file writes, process spawn outcomes, JSON decoding,
the GitHub download, RSA verification) is modelled by explicit outcome
parameters that the embedded control flow branches on, exactly as the source
branches on the corresponding error values.
-/

/-! ## util/concurrent_string_int_map.go

The sharded concurrent map `ConcurrentMap` is a string→int64 associative
container (32 shards, each an ordinary Go map under a RW lock).  Its
observable contents are a partial map from keys to values; the shallow
embedding models it as a function `String → Option Int`.  `Set` overwrites,
`Has` tests membership, matching the per-shard `shard.items[key] = value`
and `_, ok := shard.items[key]` operations.
-/

def ConcurrentMap : Type := String → Option Int

/-- Model of `util.NewConcurrentMap`: the empty map. -/
def NewConcurrentMap : ConcurrentMap := fun _ => none

/-- Model of `(*ConcurrentMap).Set`: `shard.items[key] = value`. -/
def ConcurrentMap.Set (m : ConcurrentMap) (key : String) (value : Int) : ConcurrentMap :=
  fun k => if k = key then some value else m k

/-- Model of `ConcurrentMap.Get`: `val, ok := shard.items[key]`. -/
def ConcurrentMap.Get (m : ConcurrentMap) (key : String) : Option Int := m key

/-- Model of `(*ConcurrentMap).Has`: membership test. -/
def ConcurrentMap.Has (m : ConcurrentMap) (key : String) : Bool := (m key).isSome

/-- Model of `(*ConcurrentMap).Remove`: `delete(shard.items, key)`. -/
def ConcurrentMap.Remove (m : ConcurrentMap) (key : String) : ConcurrentMap :=
  fun k => if k = key then none else m k

/-- Model of `(*ConcurrentMap).UnmarshalJSON`.  The call to `json.Unmarshal`
into a temporary `map[string]int64` is an external-library step, modelled by
the oracle argument `parsed` (`none` = the JSON did not decode into a
string→int64 mapping).  The source returns `nil` in the error branch
(`if err := json.Unmarshal(b, &tmp); err != nil { return nil }`) and inserts
the decoded pairs otherwise, again returning `nil`.  The second component of
the result is the returned error value. -/
def ConcurrentMap.UnmarshalJSON (m : ConcurrentMap)
    (parsed : Option (List (String × Int))) : ConcurrentMap × Option String :=
  match parsed with
  | none => (m, none)
  | some tmp => (tmp.foldl (fun acc kv => acc.Set kv.1 kv.2) m, none)

/-! ## api/api.go : agent status register -/

/-- Go `type Status int`. -/
abbrev Status := Nat

def ConfigReadFailed : Status := 1
def ConfigReadSucceeded : Status := 2
def RegistrationFailed : Status := 4
def RegistrationSucceeded : Status := 8
def QueuePollingSucceeded : Status := 16
def Active : Status := 32

/-- Model of `api.UpdateStatus` (the global `status` variable becomes an
explicit argument and result):
`if !(status == Active && newStatus == QueuePollingSucceeded) { status = newStatus }`. -/
def UpdateStatus (status newStatus : Status) : Status :=
  if ¬(status = Active ∧ newStatus = QueuePollingSucceeded) then newStatus else status

/-! ## api/api.go : URL composition -/

def agentApi : String := "/api/v1/agent/"
def protocol : String := "https://"

/-- Model of Go `strings.TrimRight(s, "/")`: remove all trailing `/`. -/
def trimRightSlashes (s : String) : String :=
  ⟨(s.data.reverse.dropWhile (fun c => c = '/')).reverse⟩

/-- Model of Go `strings.Trim(s, "/")`: remove all leading and trailing `/`. -/
def trimSlashes (s : String) : String :=
  ⟨((s.data.dropWhile (fun c => c = '/')).reverse.dropWhile (fun c => c = '/')).reverse⟩

/-- Model of `api.joinURL`: trim every argument, then concatenate
`protocol`, the endpoint with trailing slashes trimmed, `agentApi`, and the
slash-joined trimmed arguments. -/
def joinURL (endpoint : String) (args : List String) : String :=
  protocol ++ trimRightSlashes endpoint ++ agentApi
    ++ String.intercalate "/" (args.map trimSlashes)

/-! ## executor/executor.go : output truncation -/

/-- The constant `maxActionOutputSize = 10 * 1024 * 1024` (10 MiB). -/
def maxActionOutputSize : Nat := 10 * 1024 * 1024

/-- Model of the truncation applied to the captured stdout/stderr byte
strings in `ExecuteAction`: `if len(s) > maxActionOutputSize { s = s[:maxActionOutputSize-1] }`. -/
def truncateOutput (s : List Nat) : List Nat :=
  if maxActionOutputSize < s.length then s.take (maxActionOutputSize - 1) else s

/-! ## api/api.go : Event, and the action output message

`Event` is the JSON payload of one SQS message.  `ActionOutputMessage` is
the result report; its `actionOutput`/`failureReason` carry raw process
output and are modelled as byte lists. -/

structure Event where
  timestamp : Int
  source : String
  hostname : String
  actionType : String
  eventId : String
  agentId : String
  ruleId : String
  ruleName : String
  inflightActionId : String
  runbookName : String
  rawCommand : String
  signature : String
  timeout : Int
  githubFilePath : String
  environment : List (String × String)
  sqsMessageId : String
  receiptHandle : String
deriving DecidableEq, Repr

/-- The zero-initialised `var event api.Event` the worker is left with when
`json.Unmarshal` fails (Go zero values for every field). -/
def zeroEvent : Event :=
  { timestamp := 0, source := "", hostname := "", actionType := "", eventId := ""
  , agentId := "", ruleId := "", ruleName := "", inflightActionId := ""
  , runbookName := "", rawCommand := "", signature := "", timeout := 0
  , githubFilePath := "", environment := [], sqsMessageId := "", receiptHandle := "" }

structure ActionOutputMessage where
  ruleName : String
  ruleId : String
  hostName : String
  eventId : String
  inflightActionId : String
  actionType : String
  agentId : String
  statusCode : Int
  status : String
  isTimeout : Bool
  actionOutput : List Nat
  failureReason : List Nat
deriving DecidableEq, Repr

/-! ## worker (src/unnamed/part_004) : per-message handling of `RunLoop`

One SQS message as received by `getMessages`, with its two requested
message attributes (each possibly absent). -/

structure SQSMessage where
  body : String
  messageId : String
  receiptHandle : String
  agentIdAttr : Option String
  signatureAttr : Option String
deriving DecidableEq, Repr

/-- The externally observable effects of handling one message inside
`RunLoop`'s `for _, msg := range resp.Messages` body: whether
`DeleteMessage` was called, the `changeMessageVisibility` call made (receipt
handle and timeout), and the event pushed onto `eventsChannel`. -/
structure HandleResult where
  deleted : Bool
  visibilityChange : Option (String × Int)
  emitted : Option Event
deriving DecidableEq, Repr

/-- Shallow embedding of the per-message body of `worker.RunLoop`.
`verify` is the oracle for `security.VerifyMessage` returning
`(valid, err == nil)`; `decode` is the oracle for `json.Unmarshal` of the
body into an `Event` (`none` = decode error, in which case the source keeps
the zero-initialised event and does not set its message id or receipt
handle).  The branches mirror the source in order: missing `agentId`
attribute → skip; attribute ≠ local agent id → release with visibility 0;
missing `signature` attribute → skip; failed verification → delete; payload
agent id mismatch → delete; otherwise extend visibility to `timeout + 2`
and emit the event. -/
def runLoopHandleMessage (localAgentId : String)
    (verify : String → String → Bool × Bool)
    (decode : String → Option Event)
    (msg : SQSMessage) : HandleResult :=
  match msg.agentIdAttr with
  | none => ⟨false, none, none⟩
  | some attr =>
    if localAgentId = attr then
      match msg.signatureAttr with
      | none => ⟨false, none, none⟩
      | some sig =>
        let v := verify msg.body sig
        if v.1 ∧ v.2 then
          let event : Event :=
            match decode msg.body with
            | some e => { e with sqsMessageId := msg.messageId, receiptHandle := msg.receiptHandle }
            | none => zeroEvent
          if localAgentId = event.agentId then
            ⟨false, some (event.receiptHandle, event.timeout + 2), some event⟩
          else
            ⟨true, none, none⟩
        else
          ⟨true, none, none⟩
    else
      ⟨false, some (msg.receiptHandle, 0), none⟩

/-! ## executor/executor.go : execute and ExecuteAction

The subprocess machinery is external IO; the embedding keeps its observable
outcomes as explicit parameters and reproduces the source's control flow and
status classification exactly. -/

/-- Outcome of `cmd.Wait()` as the source distinguishes it: `success` =
`Wait` returned `nil` (process exited 0), `exitErr c` = `Wait` returned an
`*exec.ExitError` whose `ExitStatus()` is `c`, `otherErr` = `Wait` returned
some other error. -/
inductive WaitRes where
  | success
  | exitErr (code : Int)
  | otherErr
deriving DecidableEq, Repr

structure ExecuteResult where
  status : String
  statusCode : Int
  isTimeout : Bool
  stdout : List Nat
  stderr : List Nat
deriving DecidableEq, Repr

/-- Shallow embedding of `executor.execute`.  `startFailed` is the outcome
of `cmd.Start()`; `timedOut` tells whether the `time.After(event.Timeout)`
timer fired before `cmd.Wait()` delivered; `res` is the `Wait` outcome
received on the `done` channel (post-kill in the timeout case).  The source
initialises `status = "SUCCESS"`, sets `status = "TIMEOUT"`/`timeout = true`
in the timer branch, and afterwards runs the shared classification block:
any non-nil `exitError` overwrites `status` with `"FAILED"` and takes the
exit code from the `ExitError` (or `1`), while a nil `exitError` takes the
exit code from `cmd.ProcessState` (which is `0`). -/
def execute (startFailed timedOut : Bool) (res : WaitRes)
    (stdout stderr : List Nat) : ExecuteResult :=
  if startFailed then
    { status := "FAILED", statusCode := 1, isTimeout := false
    , stdout := stdout, stderr := stderr }
  else
    let status0 := if timedOut then "TIMEOUT" else "SUCCESS"
    match res with
    | .success =>
      { status := status0, statusCode := 0, isTimeout := timedOut
      , stdout := stdout, stderr := stderr }
    | .exitErr code =>
      { status := "FAILED", statusCode := code, isTimeout := timedOut
      , stdout := stdout, stderr := stderr }
    | .otherErr =>
      { status := "FAILED", statusCode := 1, isTimeout := timedOut
      , stdout := stdout, stderr := stderr }

/-- The constant `stalenessTimeout = 10 * 60 * 1000` milliseconds. -/
def stalenessTimeout : Int := 10 * 60 * 1000

/-- Model of `state.HasProcessedEvent`: membership in the in-memory event
index (`eventIdToTimestamp.Has(eventId)`). -/
def HasProcessedEvent (m : ConcurrentMap) (eventId : String) : Bool := m.Has eventId

/-- Model of `state.PersistEvent` as handled by the event-store loop:
`eventIdToTimestamp.Set(event.EventId, currentTime)` (the accompanying file
append is modelled separately, see the event-store section). -/
def PersistEvent (m : ConcurrentMap) (eventId : String) (currentTime : Int) : ConcurrentMap :=
  m.Set eventId currentTime

/-- External-IO outcomes one `ExecuteAction` call runs against:
`now` is `time.Now().UnixNano() / 1000000`; `nowUnix` is the Unix-seconds
stamp the event store records; `githubFetch` is the result of
`getRunbookFromGithub` (`none` = any of its error paths); `tmpWriteOk` is
whether `writeToTmpFile` succeeded; the remaining fields feed `execute`. -/
structure ExecEnv where
  now : Int
  nowUnix : Int
  githubFetch : Option String
  tmpWriteOk : Bool
  startFailed : Bool
  timedOut : Bool
  waitRes : WaitRes
  stdout : List Nat
  stderr : List Nat
deriving DecidableEq, Repr

/-- Observable effects of one `ExecuteAction` call: whether
`worker.DeleteMessage` was called for the event's queue message, whether
`execute` was reached (a subprocess spawn was attempted), the
`ActionOutputMessage` pushed onto the results channel, the event index
after the call, and whether the function returned a non-nil error. -/
structure ExecOut where
  deletedMsg : Bool
  executed : Bool
  emitted : Option ActionOutputMessage
  state : ConcurrentMap
  errored : Bool

/-- The materialization step of `ExecuteAction`: a non-empty
`githubFilePath` requires a non-empty GitHub key and a successful fetch
(`fetch` is the `getRunbookFromGithub` outcome); otherwise the runbook
body is `event.RawCommand` verbatim.  `none` = the error-return paths. -/
def materializeRunbook (event : Event) (githubKey : String) (fetch : Option String) :
    Option String :=
  if 0 < event.githubFilePath.length then
    if githubKey = "" then none else fetch
  else some event.rawCommand

/-- Shallow embedding of `executor.ExecuteAction`.  Gate order as in the
source: duplicate check, staleness check, GitHub-only policy check (each
deleting the message and returning nil); then materialization (GitHub fetch
or `rawCommand`), temp-file write, `PersistEvent`, `execute` (which deletes
the queue message right after `cmd.Start()`), truncation of both streams,
and emission of the `ActionOutputMessage`. -/
def ExecuteAction (st : ConcurrentMap) (event : Event) (regAgentId githubKey : String)
    (env : ExecEnv) : ExecOut :=
  if HasProcessedEvent st event.eventId then
    ⟨true, false, none, st, false⟩
  else if stalenessTimeout < env.now - event.timestamp then
    ⟨true, false, none, st, false⟩
  else if 0 < githubKey.length ∧ 0 < event.rawCommand.length then
    ⟨true, false, none, st, false⟩
  else
    match materializeRunbook event githubKey env.githubFetch with
    | none => ⟨false, false, none, st, true⟩
    | some _ =>
      if env.tmpWriteOk then
        let st' := PersistEvent st event.eventId env.nowUnix
        let r := execute env.startFailed env.timedOut env.waitRes env.stdout env.stderr
        let out : ActionOutputMessage :=
          { ruleName := event.ruleName, ruleId := event.ruleId
          , hostName := event.hostname, eventId := event.eventId
          , inflightActionId := event.inflightActionId, actionType := event.actionType
          , agentId := regAgentId, statusCode := r.statusCode, status := r.status
          , isTimeout := r.isTimeout, actionOutput := truncateOutput r.stdout
          , failureReason := truncateOutput r.stderr }
        ⟨true, true, some out, st', false⟩
      else
        ⟨false, false, none, st, true⟩

/-- One queued call to `ExecuteAction` (the event plus the registration
info, configuration and IO outcomes it runs against). -/
structure ExecInput where
  event : Event
  regAgentId : String
  githubKey : String
  env : ExecEnv

/-- Run a sequence of `ExecuteAction` calls, threading the event index
through, and count how many of them reached the execution step. -/
def runSeq (st : ConcurrentMap) : List ExecInput → ConcurrentMap × Nat
  | [] => (st, 0)
  | i :: rest =>
    let o := ExecuteAction st i.event i.regAgentId i.githubKey i.env
    let r := runSeq o.state rest
    (r.1, (if o.executed then 1 else 0) + r.2)

/-! ## metadata (package state) : the .events file format

`writeToFile` appends one line `<eventId>:::<unixSeconds>\n` per persisted
event; `reloadEventIds` scans the file line by line (`bufio.Scanner`, which
strips the terminating newline), splits each line on `":::"`
(`strings.Split`), and for lines with more than one part parses part 1 with
`strconv.ParseInt(_, 10, 64)` and `Set`s part 0 in a fresh map.  The file is
modelled as its list of lines (each a `List Char`); the `\n` terminator
written by `writeToFile` is the line framing the scanner undoes. -/

/-- The separator `eventIdTimestampSep = ":::"`. -/
def sepChars : List Char := [':', ':', ':']

/-- Does the character list begin with the three-character separator? -/
def startsWithSep (s : List Char) : Bool :=
  match s with
  | c1 :: c2 :: c3 :: _ => c1 = ':' ∧ c2 = ':' ∧ c3 = ':'
  | _ => false

/-- Locate the first occurrence of `":::"` in `s`, returning the text
before it and the text after it (the scanning core of Go `strings.Split`). -/
def findSep (s : List Char) : Option (List Char × List Char) :=
  match s with
  | [] => none
  | c :: rest =>
    if startsWithSep (c :: rest) then some ([], rest.drop 2)
    else
      match findSep rest with
      | some (pre, post) => some (c :: pre, post)
      | none => none

theorem findSep_length_lt (s pre post : List Char) (h : findSep s = some (pre, post)) :
    post.length < s.length := by
  induction s generalizing pre post with
  | nil => simp [findSep] at h
  | cons c rest ih =>
    rw [findSep] at h
    split at h
    · rename_i hpre
      obtain ⟨rfl, rfl⟩ := by simpa using h
      have : (rest.drop 2).length ≤ rest.length := by
        simp
      simp only [List.length_cons]
      omega
    · revert h
      split
      · rename_i pre' post' hrec
        intro h
        obtain ⟨rfl, rfl⟩ := by simpa using h
        have := ih _ _ hrec
        simp only [List.length_cons]
        omega
      · intro hbad; simp at hbad

/-- Go `strings.Split(s, ":::")`. -/
def splitOnSep (s : List Char) : List (List Char) :=
  match h : findSep s with
  | none => [s]
  | some (pre, post) => pre :: splitOnSep post
termination_by s.length
decreasing_by exact findSep_length_lt _ _ _ h

/-- The character for decimal digit `d` (`'0' + d`), as produced by
`strconv.FormatInt(_, 10)`. -/
def digitChar (d : Nat) : Char := Char.ofNat (48 + d)

/-- Decimal printing of a natural number, the digit core of
`strconv.FormatInt(_, 10)`. -/
def formatNat (n : Nat) : List Char :=
  if n < 10 then [digitChar n]
  else formatNat (n / 10) ++ [digitChar (n % 10)]
termination_by n
decreasing_by exact Nat.div_lt_self (by omega) (by omega)

/-- Model of `strconv.FormatInt(i, 10)`. -/
def formatInt (i : Int) : List Char :=
  if i < 0 then '-' :: formatNat i.natAbs else formatNat i.toNat

/-- Is `c` one of `'0'`..`'9'`? -/
def isDigitChar (c : Char) : Bool := 48 ≤ c.toNat ∧ c.toNat ≤ 57

/-- Accumulate one decimal digit, as `strconv.ParseInt`'s scan does. -/
def digitFoldStep (acc : Nat) (c : Char) : Nat := acc * 10 + (c.toNat - 48)

/-- Parse a non-empty all-digit string into a natural number (`none`
otherwise), the digit core of `strconv.ParseInt(_, 10, 64)`. -/
def parseNatDigits (s : List Char) : Option Nat :=
  if s ≠ [] ∧ s.all isDigitChar then some (s.foldl digitFoldStep 0) else none

/-- Model of `strconv.ParseInt(s, 10, 64)`: optional sign, decimal digits,
64-bit range check (`none` = the error outcome). -/
def parseInt (s : List Char) : Option Int :=
  match s with
  | [] => none
  | c :: rest =>
    if c = '-' then
      match parseNatDigits rest with
      | some n => if (n : Int) ≤ 2 ^ 63 then some (-(n : Int)) else none
      | none => none
    else if c = '+' then
      match parseNatDigits rest with
      | some n => if (n : Int) < 2 ^ 63 then some (n : Int) else none
      | none => none
    else
      match parseNatDigits (c :: rest) with
      | some n => if (n : Int) < 2 ^ 63 then some (n : Int) else none
      | none => none

/-- Model of one loop iteration of `state.reloadEventIds`:
`parts := strings.Split(line, ":::")`; if `len(parts) > 1` and
`strconv.ParseInt(parts[1], 10, 64)` succeeds, yield `(parts[0], value)`. -/
def parseLine (line : List Char) : Option (String × Int) :=
  match splitOnSep line with
  | p0 :: p1 :: _ =>
    match parseInt p1 with
    | some ts => some (⟨p0⟩, ts)
    | none => none
  | _ => none

/-- Model of `state.writeToFile`: append the record
`eventId + ":::" + FormatInt(timestamp, 10) + "\n"` to the file (one new
line in the line-structured file model). -/
def writeToFile (lines : List (List Char)) (eventId : String) (timestamp : Int) :
    List (List Char) :=
  lines ++ [eventId.data ++ sepChars ++ formatInt timestamp]

/-- One scanner step of `state.reloadEventIds` over a line. -/
def reloadStep (m : ConcurrentMap) (line : List Char) : ConcurrentMap :=
  match parseLine line with
  | some (k, ts) => m.Set k ts
  | none => m

/-- Model of `state.reloadEventIds`: scan the file's lines into a fresh
map. -/
def reloadEventIds (lines : List (List Char)) : ConcurrentMap :=
  lines.foldl reloadStep NewConcurrentMap

/-- The map the spec expects after persisting `pairs` in order: every pair
`Set` into an empty map, so repeated event ids keep the last-written
timestamp. -/
def expectedEventMap (pairs : List (String × Int)) : ConcurrentMap :=
  pairs.foldl (fun m p => m.Set p.1 p.2) NewConcurrentMap

/-- The `.events` file produced by appending each pair in order via
`writeToFile`, starting from an empty file. -/
def writeAllEvents (pairs : List (String × Int)) : List (List Char) :=
  pairs.foldl (fun lines p => writeToFile lines p.1 p.2) []

/-! ## Claim theorems: status register, URL join, truncation, unmarshal -/

/-- C6. Status monotonicity: if the current status is `Active` then
`UpdateStatus(QueuePollingSucceeded)` leaves the status equal to `Active`;
for every other combination of current and new status, `UpdateStatus` sets
the status to the new value. -/
theorem UpdateStatus_spec :
    (∀ s n : Status, s = Active → n = QueuePollingSucceeded → UpdateStatus s n = Active)
    ∧ (∀ s n : Status, ¬(s = Active ∧ n = QueuePollingSucceeded) → UpdateStatus s n = n) := by
  constructor
  · rintro s n rfl rfl
    simp [UpdateStatus]
  · intro s n h
    rw [UpdateStatus, if_pos h]

/-- Witness for C6: `Active` is kept on `QueuePollingSucceeded`, and a
non-`Active` status is overwritten by it. -/
theorem UpdateStatus_spec_witness :
    UpdateStatus Active QueuePollingSucceeded = Active
    ∧ ¬(RegistrationSucceeded = Active ∧ QueuePollingSucceeded = QueuePollingSucceeded)
    ∧ UpdateStatus RegistrationSucceeded QueuePollingSucceeded = QueuePollingSucceeded :=
  ⟨UpdateStatus_spec.1 Active QueuePollingSucceeded rfl rfl, by decide,
   UpdateStatus_spec.2 RegistrationSucceeded QueuePollingSucceeded (by decide)⟩

/-- C8 counterexample: with the endpoint `"https://x.example/"` (which
already carries a scheme), `joinURL` does not produce
`"https://x.example/api/v1/agent/a/b/c"` — the source prepends `"https://"`
unconditionally and only trims slashes, so the scheme is doubled. -/
theorem joinURL_counterexample :
    joinURL "https://x.example/" ["a", "/b/", "c"] ≠ "https://x.example/api/v1/agent/a/b/c" := by
  decide

/-- C8 (amended). `joinURL` on endpoint `"https://x.example/"` yields the
double-scheme URL `"https://https://x.example/api/v1/agent/a/b/c"`; on the
scheme-less endpoint `"x.example/"` it yields
`"https://x.example/api/v1/agent/a/b/c"`; and in general the result is
`"https://"` ++ endpoint-with-trailing-slashes-trimmed ++ `"/api/v1/agent/"`
++ the arguments each trimmed of surrounding slashes and joined with `"/"`. -/
theorem joinURL_spec :
    joinURL "https://x.example/" ["a", "/b/", "c"]
        = "https://https://x.example/api/v1/agent/a/b/c"
    ∧ joinURL "x.example/" ["a", "/b/", "c"] = "https://x.example/api/v1/agent/a/b/c"
    ∧ ∀ (endpoint : String) (args : List String),
        joinURL endpoint args
          = protocol ++ trimRightSlashes endpoint ++ agentApi
              ++ String.intercalate "/" (args.map trimSlashes) :=
  ⟨by decide, by decide, fun _ _ => rfl⟩

/-- C7. Truncation: a captured stream longer than 10 MiB is cut to exactly
10 MiB − 1 bytes and is a prefix of the original; a stream of at most
10 MiB passes through unchanged. -/
theorem truncateOutput_spec (s : List Nat) :
    (maxActionOutputSize < s.length →
      (truncateOutput s).length = maxActionOutputSize - 1 ∧ truncateOutput s <+: s)
    ∧ (s.length ≤ maxActionOutputSize → truncateOutput s = s) := by
  constructor
  · intro h
    rw [truncateOutput, if_pos h]
    constructor
    · rw [List.length_take]
      omega
    · exact List.take_prefix _ _
  · intro h
    rw [truncateOutput, if_neg (by omega)]

/-- Witness for C7: a stream of 10 MiB + 1 zero bytes is truncated to
10 MiB − 1 bytes, and a three-byte stream is unchanged. -/
theorem truncateOutput_spec_witness :
    maxActionOutputSize < (List.replicate (maxActionOutputSize + 1) 0).length
    ∧ (truncateOutput (List.replicate (maxActionOutputSize + 1) 0)).length
        = maxActionOutputSize - 1
    ∧ truncateOutput (List.replicate (maxActionOutputSize + 1) 0)
        <+: List.replicate (maxActionOutputSize + 1) 0
    ∧ truncateOutput [1, 2, 3] = [1, 2, 3] := by
  have h : maxActionOutputSize < (List.replicate (maxActionOutputSize + 1) 0).length := by
    simp
  have h2 : ([1, 2, 3] : List Nat).length ≤ maxActionOutputSize := by
    simp [maxActionOutputSize]
  exact ⟨h, ((truncateOutput_spec (List.replicate (maxActionOutputSize + 1) 0)).1 h).1,
    ((truncateOutput_spec (List.replicate (maxActionOutputSize + 1) 0)).1 h).2,
    (truncateOutput_spec [1, 2, 3]).2 h2⟩

/-- C10. `UnmarshalJSON` always returns `nil`; in particular on a decode
error the returned error is still `nil` and the map is left unchanged. -/
theorem UnmarshalJSON_spec :
    ∀ (m : ConcurrentMap) (parsed : Option (List (String × Int))),
      (m.UnmarshalJSON parsed).2 = none
      ∧ (parsed = none → (m.UnmarshalJSON parsed).1 = m) := by
  intro m parsed
  cases parsed <;> simp [ConcurrentMap.UnmarshalJSON]

/-- Witness for C10: a decode failure on the empty map returns no error and
leaves the map unchanged. -/
theorem UnmarshalJSON_spec_witness :
    (NewConcurrentMap.UnmarshalJSON none).2 = none
    ∧ (NewConcurrentMap.UnmarshalJSON none).1 = NewConcurrentMap :=
  ⟨(UnmarshalJSON_spec NewConcurrentMap none).1,
   (UnmarshalJSON_spec NewConcurrentMap none).2 rfl⟩

/-! ## Claim theorems: queue worker message handling -/

/-- C5. A received message whose `agentId` attribute is present but differs
from the local agent id is released via `changeMessageVisibility` with
timeout `0` on its own receipt handle; it is not deleted and no event is
emitted. -/
theorem runLoop_misaddressed_spec :
    ∀ (localAgentId : String) (verify : String → String → Bool × Bool)
      (decode : String → Option Event) (msg : SQSMessage) (attr : String),
      msg.agentIdAttr = some attr → attr ≠ localAgentId →
      runLoopHandleMessage localAgentId verify decode msg
        = ⟨false, some (msg.receiptHandle, 0), none⟩ := by
  intro localAgentId verify decode msg attr hattr hne
  unfold runLoopHandleMessage
  rw [hattr]
  simp only []
  rw [if_neg (fun h => hne h.symm)]

/-- Witness for C5: a concrete message addressed to agent `A2` handled by
agent `A1` is released with visibility `0`. -/
theorem runLoop_misaddressed_witness :
    runLoopHandleMessage "A1" (fun _ _ => (false, true)) (fun _ => none)
      ⟨"body", "m1", "r1", some "A2", none⟩ = ⟨false, some ("r1", 0), none⟩ :=
  runLoop_misaddressed_spec "A1" (fun _ _ => (false, true)) (fun _ => none)
    ⟨"body", "m1", "r1", some "A2", none⟩ "A2" rfl (by decide)

/-- C3 counterexample: a message addressed to the local agent whose
`signature` attribute is missing is NOT deleted — the source logs and
`continue`s, leaving the message in the queue. -/
theorem runLoop_missing_signature_counterexample :
    (runLoopHandleMessage "A1" (fun _ _ => (false, true)) (fun _ => none)
        ⟨"body", "m1", "r1", some "A1", none⟩).deleted = false
    ∧ (runLoopHandleMessage "A1" (fun _ _ => (false, true)) (fun _ => none)
        ⟨"body", "m1", "r1", some "A1", none⟩).emitted = none := by
  decide

/-- C3 (amended). For a message whose `agentId` attribute equals the local
agent id: if the `signature` attribute is missing the message is skipped —
neither deleted nor emitted (it reappears after the visibility timeout);
if the signature attribute is present but `VerifyMessage` does not verify,
the message is deleted and the event is never emitted downstream. -/
theorem runLoop_signature_spec :
    ∀ (localAgentId : String) (verify : String → String → Bool × Bool)
      (decode : String → Option Event) (msg : SQSMessage),
      msg.agentIdAttr = some localAgentId →
      ((msg.signatureAttr = none →
          runLoopHandleMessage localAgentId verify decode msg = ⟨false, none, none⟩)
        ∧ (∀ sig, msg.signatureAttr = some sig →
            ¬((verify msg.body sig).1 ∧ (verify msg.body sig).2) →
            runLoopHandleMessage localAgentId verify decode msg = ⟨true, none, none⟩)) := by
  intro localAgentId verify decode msg hattr
  constructor
  · intro hsig
    unfold runLoopHandleMessage
    rw [hattr, hsig]
    simp
  · intro sig hsig hver
    unfold runLoopHandleMessage
    rw [hattr, hsig]
    simp only [eq_self_iff_true, if_true]
    rw [if_neg hver]

/-- Witness for C3: with the local agent id in the attribute, a missing
signature is skipped and a failing verification is deleted. -/
theorem runLoop_signature_witness :
    runLoopHandleMessage "A1" (fun _ _ => (false, true)) (fun _ => none)
      ⟨"body", "m1", "r1", some "A1", none⟩ = ⟨false, none, none⟩
    ∧ runLoopHandleMessage "A1" (fun _ _ => (false, true)) (fun _ => none)
      ⟨"body", "m1", "r1", some "A1", some "sig"⟩ = ⟨true, none, none⟩ :=
  ⟨(runLoop_signature_spec "A1" (fun _ _ => (false, true)) (fun _ => none)
      ⟨"body", "m1", "r1", some "A1", none⟩ rfl).1 rfl,
   (runLoop_signature_spec "A1" (fun _ _ => (false, true)) (fun _ => none)
      ⟨"body", "m1", "r1", some "A1", some "sig"⟩ rfl).2 "sig" rfl (by decide)⟩

/-! ## Claim theorems: executor gates -/

/-- C4. If at `ExecuteAction`'s staleness gate `now − event.timestamp`
exceeds 10 minutes (600000 ms), no subprocess is spawned and no
`ActionOutput` is emitted: the queue message is deleted and the call
returns. -/
theorem ExecuteAction_stale_spec :
    ∀ (st : ConcurrentMap) (event : Event) (regAgentId githubKey : String) (env : ExecEnv),
      stalenessTimeout < env.now - event.timestamp →
      (ExecuteAction st event regAgentId githubKey env).executed = false
      ∧ (ExecuteAction st event regAgentId githubKey env).emitted = none
      ∧ (ExecuteAction st event regAgentId githubKey env).deletedMsg = true := by
  intro st event regAgentId githubKey env h
  unfold ExecuteAction
  repeat' split
  all_goals exact ⟨rfl, rfl, rfl⟩

/-- A stale event: timestamp 0, observed at now = 600001 ms. -/
def staleEvent : Event := { zeroEvent with eventId := "E-stale", rawCommand := "echo" }

def staleEnv : ExecEnv :=
  { now := 600001, nowUnix := 600, githubFetch := none, tmpWriteOk := true
  , startFailed := false, timedOut := false, waitRes := .success
  , stdout := [], stderr := [] }

/-- Witness for C4: the concrete stale event is dropped — deleted, not
executed, nothing emitted. -/
theorem ExecuteAction_stale_witness :
    stalenessTimeout < staleEnv.now - staleEvent.timestamp
    ∧ (ExecuteAction NewConcurrentMap staleEvent "A1" "" staleEnv).executed = false
    ∧ (ExecuteAction NewConcurrentMap staleEvent "A1" "" staleEnv).emitted = none
    ∧ (ExecuteAction NewConcurrentMap staleEvent "A1" "" staleEnv).deletedMsg = true :=
  ⟨by decide, ExecuteAction_stale_spec NewConcurrentMap staleEvent "A1" "" staleEnv (by decide)⟩

/-- A fresh, valid event that will time out. -/
def timeoutEvent : Event :=
  { zeroEvent with
      eventId := "E-timeout", rawCommand := "sleep 30", timeout := 1,
      receiptHandle := "r-t" }

/-- IO outcomes of the timed-out run: the timer fired, the kill happened,
and the post-kill `Wait` reported an `ExitError` (exit status −1, the
POSIX outcome for a SIGTERM-killed process). -/
def timeoutEnv : ExecEnv :=
  { now := 0, nowUnix := 0, githubFetch := none, tmpWriteOk := true
  , startFailed := false, timedOut := true, waitRes := .exitErr (-1)
  , stdout := [], stderr := [] }

/-- C2 (code evaluation). On a timed-out run whose post-kill `Wait`
returns an error — the normal outcome of killing the process — the emitted
`ActionOutput` has `isTimeout = true` but `status = "FAILED"`, not
`"TIMEOUT"`: the shared error-classification block after the select
overwrites the `status = "TIMEOUT"` assignment made in the timer branch. -/
theorem execute_timeout_code_eval :
    (execute false true (WaitRes.exitErr (-1)) [] []).status = "FAILED"
    ∧ (execute false true (WaitRes.exitErr (-1)) [] []).isTimeout = true
    ∧ ((ExecuteAction NewConcurrentMap timeoutEvent "A1" "" timeoutEnv).emitted.map
        ActionOutputMessage.status) = some "FAILED"
    ∧ ((ExecuteAction NewConcurrentMap timeoutEvent "A1" "" timeoutEnv).emitted.map
        ActionOutputMessage.isTimeout) = some true := by
  decide

/-! ## Claim theorems: dedup / exactly-once execution -/

theorem HasProcessedEvent_PersistEvent_self (m : ConcurrentMap) (id : String) (t : Int) :
    HasProcessedEvent (PersistEvent m id t) id = true := by
  unfold HasProcessedEvent PersistEvent ConcurrentMap.Has ConcurrentMap.Set
  simp

theorem ExecuteAction_processed (st : ConcurrentMap) (event : Event)
    (regAgentId githubKey : String) (env : ExecEnv)
    (h : HasProcessedEvent st event.eventId = true) :
    ExecuteAction st event regAgentId githubKey env = ⟨true, false, none, st, false⟩ := by
  unfold ExecuteAction
  rw [if_pos h]

/-- Every `ExecuteAction` call either does not reach `execute` and leaves
the event index unchanged, or reaches it with the event just persisted. -/
theorem ExecuteAction_cases (st : ConcurrentMap) (event : Event)
    (regAgentId githubKey : String) (env : ExecEnv) :
    ((ExecuteAction st event regAgentId githubKey env).executed = false
      ∧ (ExecuteAction st event regAgentId githubKey env).state = st)
    ∨ ((ExecuteAction st event regAgentId githubKey env).executed = true
      ∧ (ExecuteAction st event regAgentId githubKey env).state
          = PersistEvent st event.eventId env.nowUnix) := by
  unfold ExecuteAction
  repeat' split
  all_goals first
    | exact Or.inl ⟨rfl, rfl⟩
    | exact Or.inr ⟨rfl, rfl⟩

theorem runSeq_cons (st : ConcurrentMap) (i : ExecInput) (rest : List ExecInput) :
    (runSeq st (i :: rest)).2
      = (if (ExecuteAction st i.event i.regAgentId i.githubKey i.env).executed then 1 else 0)
        + (runSeq (ExecuteAction st i.event i.regAgentId i.githubKey i.env).state rest).2 := rfl

/-- If the index already contains `id`, a sequence of calls whose events
all carry `id` never executes. -/
theorem runSeq_none (id : String) :
    ∀ inputs : List ExecInput, (∀ i ∈ inputs, i.event.eventId = id) →
      ∀ st : ConcurrentMap, HasProcessedEvent st id = true → (runSeq st inputs).2 = 0 := by
  intro inputs
  induction inputs with
  | nil => intro _ st _; rfl
  | cons i rest ih =>
    intro hall st h
    have hid : i.event.eventId = id := hall i (by simp)
    have hproc : HasProcessedEvent st i.event.eventId = true := by rw [hid]; exact h
    rw [runSeq_cons, ExecuteAction_processed st i.event i.regAgentId i.githubKey i.env hproc]
    simp only [Bool.false_eq_true, if_false, Nat.zero_add]
    exact ih (fun j hj => hall j (by simp [hj])) st h

/-- Across a sequence of calls sharing one eventId, at most one reaches
the execution step. -/
theorem runSeq_le_one (id : String) :
    ∀ inputs : List ExecInput, (∀ i ∈ inputs, i.event.eventId = id) →
      ∀ st : ConcurrentMap, (runSeq st inputs).2 ≤ 1 := by
  intro inputs
  induction inputs with
  | nil => intro _ st; simp [runSeq]
  | cons i rest ih =>
    intro hall st
    have hid : i.event.eventId = id := hall i (by simp)
    rw [runSeq_cons]
    rcases ExecuteAction_cases st i.event i.regAgentId i.githubKey i.env with
      ⟨hex, hst⟩ | ⟨hex, hst⟩
    · rw [hex, hst]
      have := ih (fun j hj => hall j (by simp [hj])) st
      simp only [Bool.false_eq_true, if_false, Nat.zero_add]
      exact this
    · rw [hex, hst]
      rw [runSeq_none id rest (fun j hj => hall j (by simp [hj])) _
          (by rw [← hid]; exact HasProcessedEvent_PersistEvent_self st i.event.eventId i.env.nowUnix)]
      simp

/-- C1. Exactly-once execution per eventId: (a) once the eventId is in the
dedup index (as `PersistEvent` leaves it), every `ExecuteAction` call for
it takes the `HasProcessedEvent` branch — it deletes the queue message,
does not execute, emits nothing, leaves the index unchanged and returns
nil; (b) across any sequence of `ExecuteAction` calls whose events share
one eventId, at most one call reaches the execution step. -/
theorem ExecuteAction_dedup_spec :
    (∀ (st : ConcurrentMap) (event : Event) (regAgentId githubKey : String) (env : ExecEnv),
        HasProcessedEvent st event.eventId = true →
        ExecuteAction st event regAgentId githubKey env = ⟨true, false, none, st, false⟩)
    ∧ (∀ (st : ConcurrentMap) (id : String) (inputs : List ExecInput),
        (∀ i ∈ inputs, i.event.eventId = id) → (runSeq st inputs).2 ≤ 1) :=
  ⟨ExecuteAction_processed, fun st id inputs hall => runSeq_le_one id inputs hall st⟩

/-- A state in which event `E1` has already been persisted. -/
def dupState : ConcurrentMap := NewConcurrentMap.Set "E1" 5

def dupEvent : Event := { zeroEvent with eventId := "E1", rawCommand := "echo hello" }

def dupEnv : ExecEnv :=
  { now := 0, nowUnix := 1, githubFetch := none, tmpWriteOk := true
  , startFailed := false, timedOut := false, waitRes := .success
  , stdout := [], stderr := [] }

def dupInput : ExecInput :=
  { event := dupEvent, regAgentId := "A1", githubKey := "", env := dupEnv }

/-- Witness for C1: with `E1` already persisted, a concrete call for `E1`
only deletes the message, and a two-call sequence for `E1` executes at
most once. -/
theorem ExecuteAction_dedup_witness :
    HasProcessedEvent dupState "E1" = true
    ∧ ExecuteAction dupState dupEvent "A1" "" dupEnv = ⟨true, false, none, dupState, false⟩
    ∧ (∀ i ∈ [dupInput, dupInput], i.event.eventId = "E1")
    ∧ (runSeq NewConcurrentMap [dupInput, dupInput]).2 ≤ 1 :=
  ⟨by decide,
   ExecuteAction_dedup_spec.1 dupState dupEvent "A1" "" dupEnv (by decide),
   by decide,
   ExecuteAction_dedup_spec.2 NewConcurrentMap "E1" [dupInput, dupInput] (by decide)⟩

/-! ## Event-store round trip: decimal digits -/

theorem digitChar_toNat (d : Nat) (h : d < 10) : (digitChar d).toNat = 48 + d := by
  interval_cases d <;> decide

theorem isDigitChar_digitChar (d : Nat) (h : d < 10) : isDigitChar (digitChar d) = true := by
  interval_cases d <;> decide

theorem formatNat_ne_nil (n : Nat) : formatNat n ≠ [] := by
  rw [formatNat]
  split <;> simp

theorem formatNat_digits (n : Nat) : ∀ c ∈ formatNat n, isDigitChar c = true := by
  induction n using Nat.strong_induction_on with
  | _ n ih =>
    rw [formatNat]
    split
    · rename_i h
      intro c hc
      rw [List.mem_singleton] at hc
      subst hc
      exact isDigitChar_digitChar n h
    · rename_i h
      intro c hc
      rw [List.mem_append] at hc
      rcases hc with hc | hc
      · exact ih (n / 10) (Nat.div_lt_self (by omega) (by omega)) c hc
      · rw [List.mem_singleton] at hc
        subst hc
        exact isDigitChar_digitChar (n % 10) (Nat.mod_lt _ (by omega))

theorem isDigitChar_ne_colon (c : Char) (h : isDigitChar c = true) : c ≠ ':' := by
  intro heq
  subst heq
  exact absurd h (by decide)

theorem isDigitChar_ne_newline (c : Char) (h : isDigitChar c = true) : c ≠ '\n' := by
  intro heq
  subst heq
  exact absurd h (by decide)

theorem formatNat_foldl (n : Nat) :
    ∀ acc, (formatNat n).foldl digitFoldStep acc
      = acc * 10 ^ (formatNat n).length + n := by
  induction n using Nat.strong_induction_on with
  | _ n ih =>
    intro acc
    rw [formatNat]
    split
    · rename_i h
      simp only [List.foldl_cons, List.foldl_nil, List.length_singleton, pow_one]
      rw [digitFoldStep, digitChar_toNat n h]
      omega
    · rename_i h
      rw [List.foldl_append, List.length_append]
      rw [ih (n / 10) (Nat.div_lt_self (by omega) (by omega)) acc]
      simp only [List.foldl_cons, List.foldl_nil, List.length_singleton]
      rw [digitFoldStep, digitChar_toNat (n % 10) (Nat.mod_lt _ (by omega))]
      rw [pow_succ, ← mul_assoc]
      generalize acc * 10 ^ (formatNat (n / 10)).length = m
      omega

theorem parseNatDigits_formatNat (n : Nat) : parseNatDigits (formatNat n) = some n := by
  rw [parseNatDigits, if_pos]
  · rw [formatNat_foldl n 0]
    simp
  · exact ⟨formatNat_ne_nil n, by rw [List.all_eq_true]; exact formatNat_digits n⟩

theorem parseInt_formatInt (t : Int) (h1 : -(2 ^ 63) ≤ t) (h2 : t < 2 ^ 63) :
    parseInt (formatInt t) = some t := by
  rw [formatInt]
  split
  · rename_i hneg
    show parseInt ('-' :: formatNat t.natAbs) = some t
    simp only [parseInt]
    rw [if_pos trivial, parseNatDigits_formatNat]
    show (if ((t.natAbs : Int) ≤ 2 ^ 63) then some (-(t.natAbs : Int)) else none) = some t
    rw [if_pos (by omega)]
    congr 1
    omega
  · rename_i hpos
    rcases hne : formatNat t.toNat with _ | ⟨c, rest⟩
    · exact absurd hne (formatNat_ne_nil _)
    · have hcdig : isDigitChar c = true := formatNat_digits _ c (by rw [hne]; simp)
      have hc1 : ¬(c = '-') := by
        intro hcontr
        rw [hcontr] at hcdig
        exact absurd hcdig (by decide)
      have hc2 : ¬(c = '+') := by
        intro hcontr
        rw [hcontr] at hcdig
        exact absurd hcdig (by decide)
      simp only [parseInt]
      rw [if_neg hc1, if_neg hc2, ← hne, parseNatDigits_formatNat]
      show (if ((t.toNat : Int) < 2 ^ 63) then some ((t.toNat : Int)) else none) = some t
      rw [if_pos (by omega)]
      congr 1
      omega

/-! ## Event-store round trip: locating the separator -/

theorem findSep_cons_none (c : Char) (a' : List Char) (h : findSep (c :: a') = none) :
    findSep a' = none := by
  rw [findSep] at h
  split at h
  · exact absurd h (by simp)
  · revert h
    split
    · intro h
      exact absurd h (by simp)
    · intro _
      assumption

theorem findSep_of_no_colon (l : List Char) (h : ∀ c ∈ l, c ≠ ':') : findSep l = none := by
  induction l with
  | nil => rfl
  | cons c rest ih =>
    have hc : c ≠ ':' := h c (by simp)
    have hcond : startsWithSep (c :: rest) = false := by
      cases rest with
      | nil => rfl
      | cons d rest' =>
        cases rest' with
        | nil => rfl
        | cons e t => simp [startsWithSep, hc]
    rw [findSep, if_neg (by simp [hcond]), ih (fun x hx => h x (by simp [hx]))]

/-- The first `":::"` in `a ++ ":::" ++ b` sits exactly at the boundary,
provided `a` itself has no occurrence and does not end in a colon. -/
theorem findSep_append (a b : List Char) (ha : findSep a = none)
    (hlast : a.getLast? ≠ some ':') :
    findSep (a ++ (sepChars ++ b)) = some (a, b) := by
  induction a with
  | nil =>
    show findSep (':' :: ':' :: ':' :: b) = some ([], b)
    rw [findSep, if_pos (by simp [startsWithSep])]
    rfl
  | cons c a' ih =>
    have ha' : findSep a' = none := findSep_cons_none c a' ha
    have hlast' : a'.getLast? ≠ some ':' := by
      cases a' with
      | nil => simp
      | cons x xs =>
        intro hcontr
        exact hlast (by rw [List.getLast?_cons_cons]; exact hcontr)
    have hcond : startsWithSep (c :: (a' ++ (sepChars ++ b))) = false := by
      rcases a' with _ | ⟨d, _ | ⟨e, t⟩⟩
      · have hc : c ≠ ':' := by
          intro hcontr
          exact hlast (by rw [hcontr]; rfl)
        show startsWithSep (c :: ':' :: ':' :: ':' :: b) = false
        simp [startsWithSep, hc]
      · have hd : d ≠ ':' := by
          intro hcontr
          exact hlast (by rw [hcontr]; rfl)
        show startsWithSep (c :: d :: ':' :: ':' :: ':' :: b) = false
        simp [startsWithSep, hd]
      · show startsWithSep (c :: d :: e :: (t ++ (sepChars ++ b))) = false
        simp only [startsWithSep]
        rw [decide_eq_false_iff_not]
        rintro ⟨rfl, rfl, rfl⟩
        rw [findSep, if_pos (by simp [startsWithSep])] at ha
        exact absurd ha (by simp)
    show findSep (c :: (a' ++ (sepChars ++ b))) = some (c :: a', b)
    rw [findSep, if_neg (by simp [hcond]), ih ha' hlast']

/-! ## Event-store round trip: splitting and parsing one record -/

theorem splitOnSep_of_none (s : List Char) (h : findSep s = none) : splitOnSep s = [s] := by
  rw [splitOnSep]
  split
  · rfl
  · rename_i pre post heq
    rw [h] at heq
    exact absurd heq (by simp)

theorem splitOnSep_of_some (s pre post : List Char) (h : findSep s = some (pre, post)) :
    splitOnSep s = pre :: splitOnSep post := by
  rw [splitOnSep]
  split
  · rename_i heq
    rw [h] at heq
    exact absurd heq (by simp)
  · rename_i pre' post' heq
    rw [h] at heq
    obtain ⟨rfl, rfl⟩ := by simpa using heq
    rfl

theorem splitOnSep_record (a num : List Char) (ha : findSep a = none)
    (hlast : a.getLast? ≠ some ':') (hnum : ∀ c ∈ num, c ≠ ':') :
    splitOnSep (a ++ (sepChars ++ num)) = [a, num] := by
  rw [splitOnSep_of_some _ _ _ (findSep_append a num ha hlast),
    splitOnSep_of_none num (findSep_of_no_colon num hnum)]

theorem formatInt_no_colon (t : Int) : ∀ c ∈ formatInt t, c ≠ ':' := by
  intro c hc
  rw [formatInt] at hc
  split at hc
  · rw [List.mem_cons] at hc
    rcases hc with rfl | hc
    · decide
    · exact isDigitChar_ne_colon c (formatNat_digits _ c hc)
  · exact isDigitChar_ne_colon c (formatNat_digits _ c hc)

/-- Parsing one written record recovers the pair, provided the eventId has
no `":::"` occurrence and does not end in `':'`, and the timestamp is in
int64 range. -/
theorem parseLine_record (id : String) (ts : Int) (hid : findSep id.data = none)
    (hlast : id.data.getLast? ≠ some ':')
    (h1 : -(2 ^ 63) ≤ ts) (h2 : ts < 2 ^ 63) :
    parseLine (id.data ++ (sepChars ++ formatInt ts)) = some (id, ts) := by
  rw [parseLine, splitOnSep_record id.data (formatInt ts) hid hlast (formatInt_no_colon ts)]
  simp only []
  rw [parseInt_formatInt ts h1 h2]

/-! ## Event-store round trip: folding over the whole file -/

theorem writeAllEvents_eq (pairs : List (String × Int)) :
    writeAllEvents pairs = pairs.map (fun p => p.1.data ++ (sepChars ++ formatInt p.2)) := by
  have haux : ∀ acc, pairs.foldl (fun lines p => writeToFile lines p.1 p.2) acc
      = acc ++ pairs.map (fun p => p.1.data ++ (sepChars ++ formatInt p.2)) := by
    induction pairs with
    | nil => intro acc; simp
    | cons p rest ih =>
      intro acc
      rw [List.foldl_cons, ih, List.map_cons]
      simp [writeToFile]
  rw [writeAllEvents, haux]
  simp

theorem reload_fold (pairs : List (String × Int))
    (h : ∀ p ∈ pairs, findSep p.1.data = none ∧ p.1.data.getLast? ≠ some ':'
        ∧ -(2 ^ 63) ≤ p.2 ∧ p.2 < 2 ^ 63) :
    ∀ m : ConcurrentMap,
      (pairs.map (fun p => p.1.data ++ (sepChars ++ formatInt p.2))).foldl reloadStep m
        = pairs.foldl (fun acc p => acc.Set p.1 p.2) m := by
  induction pairs with
  | nil => intro m; rfl
  | cons p rest ih =>
    intro m
    rw [List.map_cons, List.foldl_cons, List.foldl_cons]
    have hp := h p (by simp)
    have hstep : reloadStep m (p.1.data ++ (sepChars ++ formatInt p.2)) = m.Set p.1 p.2 := by
      rw [reloadStep, parseLine_record p.1 p.2 hp.1 hp.2.1 hp.2.2.1 hp.2.2.2]
    rw [hstep]
    exact ih (fun q hq => h q (by simp [hq])) (m.Set p.1 p.2)

/-- C9 (amended). Event-file round trip: appending each
`(eventId, unix-seconds)` pair via `writeToFile` and reloading via
`reloadEventIds` recovers exactly the map obtained by `Set`ting each pair
in order (last-written timestamp wins for repeated ids), provided no
eventId contains `":::"` or a newline, no eventId ends in `':'`, and each
timestamp is in int64 range. -/
theorem reloadEventIds_roundtrip (pairs : List (String × Int))
    (h : ∀ p ∈ pairs, findSep p.1.data = none ∧ '\n' ∉ p.1.data
        ∧ p.1.data.getLast? ≠ some ':' ∧ -(2 ^ 63) ≤ p.2 ∧ p.2 < 2 ^ 63) :
    reloadEventIds (writeAllEvents pairs) = expectedEventMap pairs := by
  rw [writeAllEvents_eq, reloadEventIds, expectedEventMap]
  exact reload_fold pairs
    (fun p hp => ⟨(h p hp).1, (h p hp).2.2.1, (h p hp).2.2.2.1, (h p hp).2.2.2.2⟩)
    NewConcurrentMap

/-- Witness for C9: three concrete pairs (with a repeated id) round-trip
through the `.events` file, the repeated id keeping its last timestamp. -/
theorem reloadEventIds_roundtrip_witness :
    (∀ p ∈ [(("E1" : String), (5 : Int)), ("E2", 7), ("E1", 9)],
        findSep p.1.data = none ∧ '\n' ∉ p.1.data
        ∧ p.1.data.getLast? ≠ some ':' ∧ -(2 ^ 63) ≤ p.2 ∧ p.2 < 2 ^ 63)
    ∧ reloadEventIds (writeAllEvents [(("E1" : String), (5 : Int)), ("E2", 7), ("E1", 9)])
        = expectedEventMap [(("E1" : String), (5 : Int)), ("E2", 7), ("E1", 9)] :=
  ⟨by decide, reloadEventIds_roundtrip [(("E1" : String), (5 : Int)), ("E2", 7), ("E1", 9)]
    (by decide)⟩

/-- C9 counterexample: the eventId `"a:"` contains neither `":::"` nor a
newline, yet the written record `"a::::5"` parses back wrongly — the split
finds the separator one character early, `":5"` fails `ParseInt`, and the
entry is lost: reloading yields `none` for `"a:"` where the claim demands
`some 5`. -/
theorem reloadEventIds_counterexample :
    (findSep (String.data "a:") = none ∧ '\n' ∉ String.data "a:")
    ∧ reloadEventIds (writeAllEvents [(("a:" : String), (5 : Int))]) "a:" = none
    ∧ expectedEventMap [(("a:" : String), (5 : Int))] "a:" = some 5 := by
  refine ⟨by decide, ?_, by decide⟩
  have hfmt : formatInt 5 = ['5'] := by
    rw [formatInt, if_neg (by norm_num), formatNat, if_pos (by norm_num)]
    decide
  have hfile : writeAllEvents [(("a:" : String), (5 : Int))]
      = [['a', ':', ':', ':', ':', '5']] := by
    rw [writeAllEvents, List.foldl_cons, List.foldl_nil, writeToFile, hfmt]
    decide
  have hsplit : splitOnSep ['a', ':', ':', ':', ':', '5'] = [['a'], [':', '5']] := by
    rw [splitOnSep_of_some _ ['a'] [':', '5'] (by decide),
      splitOnSep_of_none [':', '5'] (by decide)]
  have hparse : parseLine ['a', ':', ':', ':', ':', '5'] = none := by
    rw [parseLine, hsplit]
    simp only []
    rw [show parseInt [':', '5'] = none from by decide]
  rw [hfile, reloadEventIds, List.foldl_cons, List.foldl_nil, reloadStep, hparse]
  rfl
